import Mathlib

/-!
Verification development for the avc-importer repository.

Shallow embedding conventions:
* Go strings are modelled as `List Char` (`Str`).  Go compares strings
  byte-wise over UTF-8; for valid UTF-8 this coincides with code-point
  order, so character-wise comparison over `List Char` is faithful.
* Filesystem state relevant to the checkpoint is the content of the single
  file checkpoint.json, modelled as `Option Str` (none = file absent).
* The wall clock (time.Now in Go) is passed in as explicit date/time
  string parameters.
* Fallible Go functions returning (T, error) are modelled as pairs with an
  `Option Str` error component, mirroring the Go multi-value return.
-/

namespace AvcImporter

/-- Go strings modelled as lists of unicode scalar values. -/
abbrev Str := List Char

/-- Converts a Lean string literal to the `Str` model. -/
def strOf (s : String) : Str := s.data

/-! ### Go string comparison (byte-wise lexicographic)

`cmpChar`/`cmpStr` model Go's built-in string comparison operators
(`<`, `<=`, `>` on `string`), which compare byte-wise; over valid
UTF-8 this equals code-point lexicographic comparison. -/

/-- Three-way comparison of two characters by code point. -/
def cmpChar (a b : Char) : Ordering :=
  if a.toNat < b.toNat then Ordering.lt
  else if b.toNat < a.toNat then Ordering.gt
  else Ordering.eq

/-- Three-way lexicographic comparison of two strings, as Go compares strings. -/
def cmpStr : Str → Str → Ordering
  | [], [] => Ordering.eq
  | [], _ :: _ => Ordering.lt
  | _ :: _, [] => Ordering.gt
  | a :: as, b :: bs =>
    match cmpChar a b with
    | Ordering.eq => cmpStr as bs
    | o => o

/-- Go's `a < b` on strings. -/
def ltStr (a b : Str) : Bool :=
  match cmpStr a b with
  | Ordering.lt => true
  | _ => false

/-- Go's `a <= b` on strings. -/
def leStr (a b : Str) : Bool :=
  match cmpStr a b with
  | Ordering.gt => false
  | _ => true

/-- Binary maximum under the Go string ordering. -/
def maxStr (a b : Str) : Str := if ltStr a b then b else a

theorem charToNat_inj {x y : Char} (h : x.toNat = y.toNat) : x = y := by
  rw [← Char.ofNat_toNat x, ← Char.ofNat_toNat y, h]

theorem cmpChar_self (a : Char) : cmpChar a a = Ordering.eq := by
  simp [cmpChar]

theorem cmpStr_self (a : Str) : cmpStr a a = Ordering.eq := by
  induction a with
  | nil => rfl
  | cons x xs ih => simp [cmpStr, cmpChar_self, ih]

theorem cmpStr_eq_iff {a b : Str} : cmpStr a b = Ordering.eq ↔ a = b := by
  constructor
  · intro h
    induction a generalizing b with
    | nil => cases b with
      | nil => rfl
      | cons y ys => simp [cmpStr] at h
    | cons x xs ih =>
      cases b with
      | nil => simp [cmpStr] at h
      | cons y ys =>
        simp only [cmpStr] at h
        rcases hc : cmpChar x y with _ | _ | _ <;> rw [hc] at h
        · exact absurd h (by simp)
        · have hxy : x = y := by
            by_cases h1 : x.toNat < y.toNat
            · simp [cmpChar, h1] at hc
            · by_cases h2 : y.toNat < x.toNat
              · simp [cmpChar, h1, h2] at hc
              · exact charToNat_inj (by omega)
          subst hxy
          rw [ih h]
        · exact absurd h (by simp)
  · intro h; subst h; exact cmpStr_self a

theorem cmpChar_swap (a b : Char) :
    cmpChar a b = Ordering.lt ↔ cmpChar b a = Ordering.gt := by
  unfold cmpChar
  by_cases h1 : a.toNat < b.toNat <;> by_cases h2 : b.toNat < a.toNat <;>
    simp [h1, h2] <;> omega

theorem cmpStr_swap {a b : Str} :
    cmpStr a b = Ordering.lt ↔ cmpStr b a = Ordering.gt := by
  induction a generalizing b with
  | nil => cases b <;> simp [cmpStr]
  | cons x xs ih =>
    cases b with
    | nil => simp [cmpStr]
    | cons y ys =>
      simp only [cmpStr]
      rcases hc : cmpChar x y with _ | _ | _
      · rw [(cmpChar_swap x y).mp hc]; simp
      · have hyx : cmpChar y x = Ordering.eq := by
          unfold cmpChar at hc ⊢
          by_cases h1 : x.toNat < y.toNat <;> by_cases h2 : y.toNat < x.toNat <;>
            simp [h1, h2] at hc ⊢
        rw [hyx]; exact ih
      · have hyx : cmpChar y x = Ordering.lt := (cmpChar_swap y x).mpr hc
        rw [hyx]; simp

theorem cmpChar_trans {a b c : Char} (h1 : cmpChar a b = Ordering.lt)
    (h2 : cmpChar b c = Ordering.lt) : cmpChar a c = Ordering.lt := by
  unfold cmpChar at h1 h2 ⊢
  by_cases hab : a.toNat < b.toNat <;> by_cases hbc : b.toNat < c.toNat <;>
    simp_all <;> omega

theorem cmpChar_eq_iff {a b : Char} : cmpChar a b = Ordering.eq ↔ a = b := by
  constructor
  · intro h
    unfold cmpChar at h
    by_cases h1 : a.toNat < b.toNat <;> by_cases h2 : b.toNat < a.toNat <;>
      simp [h1, h2] at h
    exact charToNat_inj (by omega)
  · intro h; subst h; exact cmpChar_self a

theorem cmpStr_trans {a b c : Str} (h1 : cmpStr a b = Ordering.lt)
    (h2 : cmpStr b c = Ordering.lt) : cmpStr a c = Ordering.lt := by
  induction a generalizing b c with
  | nil =>
    cases c with
    | nil =>
      cases b with
      | nil => exact h2
      | cons y ys => simp [cmpStr] at h2
    | cons z zs => simp [cmpStr]
  | cons x xs ih =>
    cases b with
    | nil => simp [cmpStr] at h1
    | cons y ys =>
      cases c with
      | nil => simp [cmpStr] at h2
      | cons z zs =>
        simp only [cmpStr] at h1 h2 ⊢
        rcases hxy : cmpChar x y with _ | _ | _ <;> rw [hxy] at h1
        · rcases hyz : cmpChar y z with _ | _ | _ <;> rw [hyz] at h2
          · rw [cmpChar_trans hxy hyz]
          · rw [cmpChar_eq_iff.mp hyz] at hxy; rw [hxy]
          · exact absurd h2 (by simp)
        · rcases hyz : cmpChar y z with _ | _ | _ <;> rw [hyz] at h2
          · rw [cmpChar_eq_iff.mp hxy]; rw [hyz]
          · rw [cmpChar_eq_iff.mp hxy, hyz]; exact ih h1 h2
          · exact absurd h2 (by simp)
        · exact absurd h1 (by simp)

theorem ltStr_iff {a b : Str} : ltStr a b = true ↔ cmpStr a b = Ordering.lt := by
  unfold ltStr
  rcases h : cmpStr a b <;> simp

theorem leStr_iff {a b : Str} : leStr a b = true ↔ cmpStr a b ≠ Ordering.gt := by
  unfold leStr
  rcases h : cmpStr a b <;> simp

theorem leStr_refl (a : Str) : leStr a a = true := by
  simp [leStr_iff, cmpStr_self]

theorem not_leStr_iff {a b : Str} : leStr a b = false ↔ ltStr b a = true := by
  rw [ltStr_iff]
  unfold leStr
  rcases h : cmpStr a b with _ | _ | _ <;> simp
  · intro hba
    rw [cmpStr_swap] at hba
    rw [hba] at h; exact absurd h (by simp)
  · intro hba
    rw [cmpStr_swap] at hba
    rw [hba] at h; exact absurd h (by simp)
  · exact cmpStr_swap.mpr h

theorem ltStr_of_ltStr_of_leStr {a b c : Str} (h1 : ltStr a b = true)
    (h2 : leStr b c = true) : ltStr a c = true := by
  rw [ltStr_iff] at h1 ⊢
  rw [leStr_iff] at h2
  rcases h : cmpStr b c with _ | _ | _
  · exact cmpStr_trans h1 h
  · rw [cmpStr_eq_iff.mp h] at h1; exact h1
  · exact absurd h h2

theorem leStr_trans {a b c : Str} (h1 : leStr a b = true)
    (h2 : leStr b c = true) : leStr a c = true := by
  rw [leStr_iff] at h1 h2 ⊢
  intro hac
  rw [← cmpStr_swap] at hac
  rcases h : cmpStr b c with _ | _ | _
  · rcases hab : cmpStr a b with _ | _ | _
    · exact absurd (cmpStr_trans hac (cmpStr_trans hab h)) (by simp [cmpStr_self])
    · rw [cmpStr_eq_iff.mp hab] at hac
      exact absurd (cmpStr_trans hac h) (by simp [cmpStr_self])
    · exact h1 hab
  · rw [← cmpStr_eq_iff.mp h] at hac
    exact h1 (cmpStr_swap.mp hac)
  · exact h2 h

theorem leStr_maxStr_left (a b : Str) : leStr a (maxStr a b) = true := by
  unfold maxStr
  by_cases h : ltStr a b = true
  · rw [if_pos h, leStr_iff]
    intro hg
    rw [ltStr_iff] at h
    rw [← cmpStr_swap] at hg
    exact absurd (cmpStr_trans h hg) (by simp [cmpStr_self])
  · rw [if_neg h]; exact leStr_refl a

/-! ### Envelope extraction (pkg/utils/edi_ack.go)

The three package-level regular expressions `isaRe`, `gsRe` and `stRe` are
embedded as executable matchers with Go regexp semantics: the overall match
starts at the leftmost possible position, greedy quantifiers prefer the
longest consumption and backtrack on failure.  For the character-class
quantifiers of these patterns (a nonempty class-run followed by a literal
that starts with a character outside the class) greedy backtracking
collapses to taking the maximal run, so those are matched deterministically;
the two genuinely backtracking greedy dot-plus quantifiers of `isaRe` are
matched by trying every consumption length from longest to shortest. -/

/-- Digit character class, the pattern 0-9. -/
def isDigit (c : Char) : Bool := 48 ≤ c.toNat && c.toNat ≤ 57

/-- Matches a literal piece of a pattern, returning the remaining input. -/
def lit (p : String) (s : Str) : Option Str :=
  if p.data.isPrefixOf s then some (s.drop p.data.length) else none

/-- First successful application of a function along a list of candidates. -/
def firstSome {α β : Type} (f : α → Option β) : List α → Option β
  | [] => none
  | a :: as =>
    match f a with
    | some b => some b
    | none => firstSome f as

/-- Greedy nonempty run of a character class whose continuation starts with
a character outside the class: deterministically takes the maximal run. -/
def capWhile (p : Char → Bool) (s : Str) : Option (Str × Str) :=
  let run := s.takeWhile p
  if run.isEmpty then none else some (run, s.drop run.length)

/-- Bounded repetition of a character class, the pattern cls-brace-n. -/
def capCount (p : Char → Bool) (n : Nat) (s : Str) : Option (Str × Str) :=
  let pre := s.take n
  if pre.length = n && pre.all p then some (pre, s.drop n) else none

/-- Greedy dot-plus: tries every nonempty consumption of non-newline
characters, longest first, passing the remainder to the continuation. -/
def dotPlus {β : Type} (s : Str) (k : Str → Option β) : Option β :=
  let m := (s.takeWhile (fun c => c ≠ '\n')).length
  firstSome (fun n => k (s.drop n)) ((List.range m).reverse.map (· + 1))

/-- Anchored match of isaRe at the start of s, capturing ISA sender, ISA
receiver, date (YYMMDD), time (HHMM) and the interchange control number. -/
def matchIsaAt (s : Str) : Option (Str × Str × Str × Str × Str) :=
  (lit "ISA*00*" s).bind fun s1 =>
  dotPlus s1 fun s2 =>
  (lit "*00*" s2).bind fun s3 =>
  dotPlus s3 fun s4 =>
  (lit "*ZZ*" s4).bind fun s5 =>
  (capWhile (fun c => c ≠ '*') s5).bind fun c1s =>
  (lit "*ZZ*" c1s.2).bind fun s7 =>
  (capWhile (fun c => c ≠ '*') s7).bind fun c2s =>
  (lit "*" c2s.2).bind fun s9 =>
  (capCount isDigit 6 s9).bind fun c3s =>
  (lit "*" c3s.2).bind fun s11 =>
  (capCount isDigit 4 s11).bind fun c4s =>
  (lit "*U*00400*" c4s.2).bind fun s13 =>
  (capWhile isDigit s13).bind fun c5s =>
  (lit "*" c5s.2).map fun _ => (c1s.1, c2s.1, c3s.1, c4s.1, c5s.1)

/-- FindStringSubmatch for isaRe: leftmost match over all start positions. -/
def isaFind (s : Str) : Option (Str × Str × Str × Str × Str) :=
  firstSome matchIsaAt s.tails

/-- Anchored match of gsRe, capturing GS sender, GS receiver, date
(YYYYMMDD), time (HHMM) and the group control number. -/
def matchGsAt (s : Str) : Option (Str × Str × Str × Str × Str) :=
  (lit "GS*PO*" s).bind fun s1 =>
  (capWhile (fun c => c ≠ '*') s1).bind fun c1s =>
  (lit "*" c1s.2).bind fun s3 =>
  (capWhile (fun c => c ≠ '*') s3).bind fun c2s =>
  (lit "*" c2s.2).bind fun s5 =>
  (capCount isDigit 8 s5).bind fun c3s =>
  (lit "*" c3s.2).bind fun s7 =>
  (capCount isDigit 4 s7).bind fun c4s =>
  (lit "*" c4s.2).bind fun s9 =>
  (capWhile isDigit s9).bind fun c5s =>
  (lit "*X" c5s.2).map fun _ => (c1s.1, c2s.1, c3s.1, c4s.1, c5s.1)

/-- FindStringSubmatch for gsRe. -/
def gsFind (s : Str) : Option (Str × Str × Str × Str × Str) :=
  firstSome matchGsAt s.tails

/-- Anchored match of stRe, capturing the ST transaction-set control number. -/
def matchStAt (s : Str) : Option Str :=
  (lit "ST*850*" s).bind fun s1 =>
  (capWhile isDigit s1).map fun cs => cs.1

/-- FindStringSubmatch for stRe. -/
def stFind (s : Str) : Option Str :=
  firstSome matchStAt s.tails

/-- Error text produced for a document whose ISA segment does not match. -/
def errIsa : Str := strOf "invalid ISA segment: expected 5 captures, got -1"

/-- Error text produced for a document whose GS segment does not match. -/
def errGs : Str := strOf "invalid GS segment: expected 5 captures, got -1"

/-- Error text produced for a document whose ST segment does not match. -/
def errSt : Str := strOf "invalid ST segment: could not find control number"

/-- Shallow embedding of Generate997 from pkg/utils/edi_ack.go.  The two
timestamp strings stand for time.Now rendered as YYMMDD and HHMM; the Go
function returns a (string, error) pair, modelled as Str paired with an
optional error message. -/
def Generate997 (input senderID isaDate isaTime : Str) : Str × Option Str :=
  match isaFind input with
  | none => ([], some errIsa)
  | some m =>
    match gsFind input with
    | none => ([], some errGs)
    | some m2 =>
      match stFind input with
      | none => ([], some errSt)
      | some origSetCtrl =>
        let origInterchangeCtrl := m.2.2.2.2
        let origDate := m2.2.2.1
        let origTime := m2.2.2.2.1
        let origGroupCtrl := m2.2.2.2.2
        let isa := strOf "ISA*00*          *00*          *ZZ*AMAZON         *ZZ*"
          ++ senderID ++ strOf "*" ++ isaDate ++ strOf "*" ++ isaTime
          ++ strOf "*U*00400*" ++ origInterchangeCtrl ++ strOf "*0*T*>~\n"
        let gs := strOf "GS*FA*AMAZON*" ++ senderID ++ strOf "*" ++ origDate
          ++ strOf "*" ++ origTime ++ strOf "*" ++ origGroupCtrl
          ++ strOf "*X*004010~\n"
        let st := strOf "ST*997*" ++ origSetCtrl ++ strOf "~\n"
        let ak1 := strOf "AK1*PO*" ++ origGroupCtrl ++ strOf "~\n"
        let ak9 := strOf "AK9*A*1*1*1~\n"
        let se := strOf "SE*6*" ++ origSetCtrl ++ strOf "~\n"
        let ge := strOf "GE*1*" ++ origGroupCtrl ++ strOf "~\n"
        let iea := strOf "IEA*1*" ++ origInterchangeCtrl ++ strOf "~"
        (isa ++ gs ++ st ++ ak1 ++ ak9 ++ se ++ ge ++ iea, none)

/-! ### Checkpoint persistence (pkg/utils/checkpoint.go)

The checkpoint struct has the single JSON field lastControlNumber.  Go's
encoding/json is embedded at the precision these claims need: the string
escaper is modelled in full (including HTML escaping of angle brackets and
ampersand, control-character escapes and the U+2028/U+2029 escapes); the
decoder is modelled for objects of the shape SaveCheckpoint produces (one
string field, arbitrary JSON whitespace).  Unicode surrogate-pair escapes
are not modelled: the encoder never emits them for valid scalar values,
which is what `Str` ranges over. -/

/-- Lowercase hexadecimal digit, as Go's encoding/json emits. -/
def hexDigitChar (n : Nat) : Char :=
  Char.ofNat (if n < 10 then 48 + n else 87 + n)

/-- Value of a hexadecimal digit character. -/
def hexVal (c : Char) : Option Nat :=
  let n := c.toNat
  if 48 ≤ n ∧ n ≤ 57 then some (n - 48)
  else if 97 ≤ n ∧ n ≤ 102 then some (n - 87)
  else if 65 ≤ n ∧ n ≤ 70 then some (n - 55)
  else none

/-- Characters Go's encoding/json copies verbatim inside an ASCII string
(the htmlSafeSet: printable ASCII except quote, backslash and the three
HTML-significant characters). -/
def jsonSafeAscii (c : Char) : Bool :=
  32 ≤ c.toNat && c != '"' && c != '\\' && c != '<' && c != '>' && c != '&'

/-- Escape of one character in a Go JSON string literal. -/
def escapeChar (c : Char) : Str :=
  if c.toNat < 128 then
    if jsonSafeAscii c then [c]
    else if c = '\\' then ['\\', '\\']
    else if c = '"' then ['\\', '"']
    else if c = '\n' then ['\\', 'n']
    else if c = '\r' then ['\\', 'r']
    else if c = '\t' then ['\\', 't']
    else ['\\', 'u', '0', '0', hexDigitChar (c.toNat / 16), hexDigitChar (c.toNat % 16)]
  else if c.toNat = 0x2028 then strOf "\\u2028"
  else if c.toNat = 0x2029 then strOf "\\u2029"
  else [c]

/-- Escape of a whole string in a Go JSON document. -/
def escapeStr : Str → Str
  | [] => []
  | c :: cs => escapeChar c ++ escapeStr cs

/-- Decodes a single-character escape of a JSON string literal. -/
def escDecode (e : Char) : Option Char :=
  if e = '"' then some '"'
  else if e = '\\' then some '\\'
  else if e = '/' then some '/'
  else if e = 'n' then some '\n'
  else if e = 'r' then some '\r'
  else if e = 't' then some '\t'
  else if e = 'b' then some '\x08'
  else if e = 'f' then some '\x0c'
  else none

/-- Parses the body of a JSON string literal after the opening quote,
returning its unescaped content and the input following the closing
quote.  Raw control characters are rejected, as Go's decoder does. -/
def unescapeStr : Str → Option (Str × Str)
  | [] => none
  | c :: rest =>
    if c = '"' then some ([], rest)
    else if c = '\\' then
      match rest with
      | [] => none
      | e :: r =>
        if e = 'u' then
          match r with
          | h1 :: h2 :: h3 :: h4 :: r2 =>
            match hexVal h1, hexVal h2, hexVal h3, hexVal h4 with
            | some a, some b, some c3, some d =>
              let n := ((a * 16 + b) * 16 + c3) * 16 + d
              if n.isValidChar then
                (unescapeStr r2).map fun p => (Char.ofNat n :: p.1, p.2)
              else none
            | _, _, _, _ => none
          | _ => none
        else
          match escDecode e with
          | some d => (unescapeStr r).map fun p => (d :: p.1, p.2)
          | none => none
    else if c.toNat < 32 then none
    else (unescapeStr rest).map fun p => (c :: p.1, p.2)

/-- Drops leading JSON whitespace. -/
def skipWs (s : Str) : Str :=
  s.dropWhile fun c => c == ' ' || c == '\t' || c == '\n' || c == '\r'

/-- Bytes SaveCheckpoint writes: the checkpoint struct rendered by a
json.Encoder with two-space indent (Encode appends a newline). -/
def encodeCheckpoint (ctrl : Str) : Str :=
  strOf "\x7b\n  \"lastControlNumber\": \"" ++ escapeStr ctrl ++ strOf "\"\n\x7d\n"

/-- Consumes one expected character from the head of the input. -/
def expectChar (c : Char) (s : Str) : Option Str :=
  match s with
  | x :: r => if x = c then some r else none
  | [] => none

/-- Decode of checkpoint.json into the checkpoint struct: Go's json
decoding restricted to the object shapes relevant here (at most one
string field; an unknown key is ignored and an absent field leaves the
zero value, as encoding/json does). -/
def decodeCheckpoint (s : Str) : Option Str :=
  (expectChar '\x7b' (skipWs s)).bind fun r =>
  match expectChar '\x7d' (skipWs r) with
  | some _ => some []
  | none =>
    (expectChar '"' (skipWs r)).bind fun r2 =>
    (unescapeStr r2).bind fun kp =>
    (expectChar ':' (skipWs kp.2)).bind fun r5 =>
    (expectChar '"' (skipWs r5)).bind fun r7 =>
    (unescapeStr r7).bind fun vp =>
    (expectChar '\x7d' (skipWs vp.2)).map fun _ =>
    if kp.1 = strOf "lastControlNumber" then vp.1 else []

/-- Shallow embedding of SaveCheckpoint: overwrites checkpoint.json with
the encoded control number, whatever the previous content was. -/
def SaveCheckpoint (prev : Option Str) (ctrl : Str) : Option Str :=
  some (encodeCheckpoint ctrl)

/-- Result of LoadCheckpoint: checkpoint.json content after the call,
whether a default file was created, and the (value, error) return pair. -/
structure LoadResult where
  fileAfter : Option Str
  created : Bool
  value : Str
  err : Option Str
  deriving Repr, DecidableEq

/-- Shallow embedding of LoadCheckpoint from pkg/utils/checkpoint.go: a
missing file is created with the empty control number and empty is
returned; otherwise the file is decoded. -/
def LoadCheckpoint (file : Option Str) : LoadResult :=
  match file with
  | none => ⟨SaveCheckpoint none [], true, [], none⟩
  | some content =>
    match decodeCheckpoint content with
    | some w => ⟨some content, false, w, none⟩
    | none => ⟨some content, false, [], some (strOf "checkpoint decode error")⟩

/-! ### The orchestrator (cmd/avcimporter/main.go)

Transport is abstracted: the remote inbound directory is a list of
(name, content) files, uploads are recorded as (name, content) pairs, and
the SP-API response body is an opaque byte string together with the list
of purchase-order numbers its JSON payload decodes to. -/

/-- Exact payload of the hard-coded connectivity test file main.go uploads
in the EDI phase (one Go string built from concatenated literals). -/
def connectivityTestPayload : Str :=
  strOf "ISA*00*          *00*          *ZZ*1691449        *ZZ*AMAZON         *250508*1540*U*00400*900000014*0*T*>~"
  ++ strOf "GS*PR*1691449*AMAZON*20250508*1540*900000014*X*004010~"
  ++ strOf "ST*855*0001~"
  ++ strOf "BAK*00*AC*CONNECTIVITYTEST*20250508~"
  ++ strOf "PO1*1*23*UP*23.45*PE*EN*1234567891234~"
  ++ strOf "ACK*IA*23*UP~"
  ++ strOf "CTT*1*23~"
  ++ strOf "SE*6*0001~"
  ++ strOf "GE*1*900000014~"
  ++ strOf "IEA*1*900000014~"

/-- Observable outcome of the EDI phase of one cycle. -/
structure EdiPhaseResult where
  localFiles : List (Str × Str)
  remoteInboundAfter : List (Str × Str)
  uploads : List (Str × Str)
  deriving Repr, DecidableEq

/-- Shallow embedding of the EDI/SFTP flow of main.go (lines 62-111): every
regular file of the remote inbound directory is downloaded to local
storage via FetchFilesOverSFTP (optionally deleting the remote copies),
then the single hard-coded ConnectivityTest document is uploaded to the
remote outbound directory.  No other upload is performed. -/
def ediPhase (inbound : List (Str × Str)) (deleteAfterDownload : Bool) :
    EdiPhaseResult :=
  { localFiles := inbound
    remoteInboundAfter := if deleteAfterDownload then [] else inbound
    uploads := [(strOf "ConnectivityTest", connectivityTestPayload)] }

/-- File name main.go gives a persisted purchase order:
fmt.Sprintf of storage fileName, an underscore, the order number, .json. -/
def mkOrderFileName (fn po : Str) : Str :=
  fn ++ '_' :: po ++ strOf ".json"

/-- Shallow embedding of the order filter loop of main.go (step 4 of the
SP-API flow): walks the purchase orders of the decoded response, skips any
whose number is at most lastCtrl, writes one file per remaining order
whose content is the entire raw response body, and tracks the highest
number seen among the written orders.  Arguments: lastCtrl is the loaded
watermark, raw the response body, fn the configured storage file name,
then the purchase-order numbers and the highest-so-far accumulator.
Returns the (fileName, content) writes in order plus the final highest. -/
def orderSyncLoop (lastCtrl raw fn : Str) :
    List Str → Str → List (Str × Str) × Str
  | [], highest => ([], highest)
  | po :: rest, highest =>
    if leStr po lastCtrl then orderSyncLoop lastCtrl raw fn rest highest
    else
      let w := (mkOrderFileName fn po, raw)
      let highest1 := if ltStr highest po then po else highest
      let r := orderSyncLoop lastCtrl raw fn rest highest1
      (w :: r.1, r.2)

/-- Observable outcome of the SP-API phase of one cycle. -/
structure ApiPhaseResult where
  orderWrites : List (Str × Str)
  checkpointAfter : Option Str
  checkpointSaved : Bool
  deriving Repr, DecidableEq

/-- Shallow embedding of the SP-API flow of main.go (lines 114-174) after
the transport steps: load the checkpoint, run the filter loop over the
decoded purchase-order numbers with the raw response body, and save the
checkpoint only when the highest number differs from the loaded one.
Returns none when loading the checkpoint fails (main exits). -/
def apiPhase (file : Option Str) (orders : List Str) (raw fn : Str) :
    Option ApiPhaseResult :=
  let load := LoadCheckpoint file
  match load.err with
  | some _ => none
  | none =>
    let lastCtrl := load.value
    let r := orderSyncLoop lastCtrl raw fn orders lastCtrl
    if r.2 ≠ lastCtrl then
      some ⟨r.1, SaveCheckpoint load.fileAfter r.2, true⟩
    else
      some ⟨r.1, load.fileAfter, false⟩

/-! ### Reading an X12 document back: line and field accessors

An acknowledgment rendered by Generate997 is eight segment lines, each
terminated by a tilde, the first seven followed by a newline.  The
accessors below recover the j-th field of the i-th segment by splitting
on the newline and the field separator, dropping the tilde terminator. -/

/-- Removes the trailing tilde of a segment line, when present. -/
def dropTilde (l : Str) : Str :=
  if l.getLast? = some '~' then l.dropLast else l

/-- Line i of a rendered document (split on the newline separator). -/
def ediLine (s : Str) (i : Nat) : Str := (s.splitOn '\n').getD i []

/-- Field j of line i of a rendered document: the segments' fields are
separated by the asterisk, with the tilde terminator dropped. -/
def ediField (s : Str) (i j : Nat) : Str :=
  ((dropTilde (ediLine s i)).splitOn '*').getD j []

theorem dropTilde_concat (x : Str) : dropTilde (x ++ ['~']) = x := by
  simp [dropTilde]

theorem splitOn_first {c : Char} {xs : Str} (h : c ∉ xs) (as : Str) :
    (xs ++ c :: as).splitOn c = xs :: as.splitOn c := by
  unfold List.splitOn
  refine List.splitOnP_first _ _ (fun x hx => ?_) c (by simp) as
  simp only [beq_iff_eq]
  exact fun he => h (he ▸ hx)

theorem splitOn_single {c : Char} {xs : Str} (h : c ∉ xs) :
    xs.splitOn c = [xs] := by
  unfold List.splitOn
  refine List.splitOnP_eq_single _ _ (fun x hx => ?_)
  simp only [beq_iff_eq]
  exact fun he => h (he ▸ hx)

/-! ### Inversion lemmas for the matchers -/

theorem firstSome_ex {α β : Type} {f : α → Option β} {l : List α} {b : β}
    (h : firstSome f l = some b) : ∃ a ∈ l, f a = some b := by
  induction l with
  | nil => simp [firstSome] at h
  | cons x xs ih =>
    simp only [firstSome] at h
    rcases hx : f x with _ | v <;> rw [hx] at h
    · obtain ⟨a, ha, hfa⟩ := ih h
      exact ⟨a, List.mem_cons_of_mem _ ha, hfa⟩
    · exact ⟨x, List.mem_cons_self _ _, hx ▸ h⟩

theorem dotPlus_ex {β : Type} {s : Str} {k : Str → Option β} {b : β}
    (h : dotPlus s k = some b) : ∃ r, k r = some b := by
  obtain ⟨n, _, hn⟩ := firstSome_ex h
  exact ⟨s.drop n, hn⟩

theorem capWhile_some {p : Char → Bool} {s : Str} {cs : Str × Str}
    (h : capWhile p s = some cs) : cs.1 ≠ [] ∧ ∀ x ∈ cs.1, p x := by
  unfold capWhile at h
  by_cases he : (s.takeWhile p).isEmpty = true
  · simp [he] at h
  · rw [if_neg he] at h
    injection h with h2
    subst h2
    exact ⟨by simpa [List.isEmpty_iff] using he, fun x hx => List.mem_takeWhile_imp hx⟩

theorem capCount_some {p : Char → Bool} {n : Nat} {s : Str} {cs : Str × Str}
    (h : capCount p n s = some cs) : cs.1.length = n ∧ ∀ x ∈ cs.1, p x := by
  unfold capCount at h
  by_cases hc : ((s.take n).length = n && (s.take n).all p) = true
  · rw [if_pos hc] at h
    injection h with h2
    subst h2
    simp only [Bool.and_eq_true, decide_eq_true_eq, List.all_eq_true] at hc
    exact ⟨hc.1, fun x hx => hc.2 x hx⟩
  · rw [if_neg hc] at h
    exact absurd h (by simp)

theorem isaFind_digits {s w x y z ic : Str}
    (h : isaFind s = some (w, x, y, z, ic)) : ic ≠ [] ∧ ∀ u ∈ ic, isDigit u := by
  obtain ⟨t0, _, ht⟩ := firstSome_ex h
  simp only [matchIsaAt, Option.bind_eq_some] at ht
  obtain ⟨s1, _, ht⟩ := ht
  obtain ⟨s2, ht⟩ := dotPlus_ex ht
  simp only [Option.bind_eq_some] at ht
  obtain ⟨s3, _, ht⟩ := ht
  obtain ⟨s4, ht⟩ := dotPlus_ex ht
  simp only [Option.bind_eq_some] at ht
  obtain ⟨s5, _, ht⟩ := ht
  obtain ⟨c1s, _, ht⟩ := ht
  obtain ⟨s7, _, ht⟩ := ht
  obtain ⟨c2s, _, ht⟩ := ht
  obtain ⟨s9, _, ht⟩ := ht
  obtain ⟨c3s, _, ht⟩ := ht
  obtain ⟨s11, _, ht⟩ := ht
  obtain ⟨c4s, _, ht⟩ := ht
  obtain ⟨s13, _, ht⟩ := ht
  obtain ⟨c5s, hc5, ht⟩ := ht
  simp only [Option.map_eq_some'] at ht
  obtain ⟨_, _, hteq⟩ := ht
  obtain ⟨hne, hdig⟩ := capWhile_some hc5
  cases hteq
  exact ⟨hne, hdig⟩

theorem gsFind_digits {s w x gd gt gc : Str}
    (h : gsFind s = some (w, x, gd, gt, gc)) :
    (gd.length = 8 ∧ ∀ u ∈ gd, isDigit u) ∧
    (gt.length = 4 ∧ ∀ u ∈ gt, isDigit u) ∧
    (gc ≠ [] ∧ ∀ u ∈ gc, isDigit u) := by
  obtain ⟨t0, _, ht⟩ := firstSome_ex h
  simp only [matchGsAt, Option.bind_eq_some] at ht
  obtain ⟨s1, _, ht⟩ := ht
  obtain ⟨c1s, _, ht⟩ := ht
  obtain ⟨s3, _, ht⟩ := ht
  obtain ⟨c2s, _, ht⟩ := ht
  obtain ⟨s5, _, ht⟩ := ht
  obtain ⟨c3s, hc3, ht⟩ := ht
  obtain ⟨s7, _, ht⟩ := ht
  obtain ⟨c4s, hc4, ht⟩ := ht
  obtain ⟨s9, _, ht⟩ := ht
  obtain ⟨c5s, hc5, ht⟩ := ht
  simp only [Option.map_eq_some'] at ht
  obtain ⟨_, _, hteq⟩ := ht
  cases hteq
  exact ⟨capCount_some hc3, capCount_some hc4, capWhile_some hc5⟩

theorem stFind_digits {s sc : Str} (h : stFind s = some sc) :
    sc ≠ [] ∧ ∀ u ∈ sc, isDigit u := by
  obtain ⟨t0, _, ht⟩ := firstSome_ex h
  simp only [matchStAt, Option.bind_eq_some] at ht
  obtain ⟨s1, _, ht⟩ := ht
  simp only [Option.map_eq_some'] at ht
  obtain ⟨cs, hcs, hteq⟩ := ht
  cases hteq
  exact capWhile_some hcs

theorem isDigit_ne_star {u : Char} (h : isDigit u = true) : u ≠ '*' := by
  rintro rfl; revert h; decide

theorem isDigit_ne_tilde {u : Char} (h : isDigit u = true) : u ≠ '~' := by
  rintro rfl; revert h; decide

theorem isDigit_ne_nl {u : Char} (h : isDigit u = true) : u ≠ '\n' := by
  rintro rfl; revert h; decide

theorem not_mem_of_digits {c : Char} {l : Str} (hd : ∀ u ∈ l, isDigit u)
    (hc : isDigit c = false) : c ∉ l := by
  intro hm
  rw [hd c hm] at hc
  exact absurd hc (by simp)

/-! ### Segment-level characterization of the built acknowledgment -/

/-- ISA segment line of the acknowledgment, tilde-terminated. -/
def ackIsaLine (sid d t ic : Str) : Str :=
  strOf "ISA*00*          *00*          *ZZ*AMAZON         *ZZ*"
  ++ sid ++ strOf "*" ++ d ++ strOf "*" ++ t ++ strOf "*U*00400*"
  ++ ic ++ strOf "*0*T*>~"

/-- GS segment line of the acknowledgment, tilde-terminated. -/
def ackGsLine (sid gd gt2 gc : Str) : Str :=
  strOf "GS*FA*AMAZON*" ++ sid ++ strOf "*" ++ gd ++ strOf "*" ++ gt2
  ++ strOf "*" ++ gc ++ strOf "*X*004010~"

/-- ST segment line of the acknowledgment, tilde-terminated. -/
def ackStLine (sc : Str) : Str := strOf "ST*997*" ++ sc ++ strOf "~"

/-- AK1 segment line of the acknowledgment, tilde-terminated. -/
def ackAk1Line (gc : Str) : Str := strOf "AK1*PO*" ++ gc ++ strOf "~"

/-- SE segment line of the acknowledgment, tilde-terminated. -/
def ackSeLine (sc : Str) : Str := strOf "SE*6*" ++ sc ++ strOf "~"

/-- GE segment line of the acknowledgment, tilde-terminated. -/
def ackGeLine (gc : Str) : Str := strOf "GE*1*" ++ gc ++ strOf "~"

/-- IEA segment line of the acknowledgment, tilde-terminated. -/
def ackIeaLine (ic : Str) : Str := strOf "IEA*1*" ++ ic ++ strOf "~"

theorem ack_concat_lines (sid d t ic gd gt2 gc sc : Str) :
    strOf "ISA*00*          *00*          *ZZ*AMAZON         *ZZ*"
      ++ sid ++ strOf "*" ++ d ++ strOf "*" ++ t ++ strOf "*U*00400*"
      ++ ic ++ strOf "*0*T*>~\n"
    ++ (strOf "GS*FA*AMAZON*" ++ sid ++ strOf "*" ++ gd ++ strOf "*" ++ gt2
      ++ strOf "*" ++ gc ++ strOf "*X*004010~\n")
    ++ (strOf "ST*997*" ++ sc ++ strOf "~\n")
    ++ (strOf "AK1*PO*" ++ gc ++ strOf "~\n")
    ++ strOf "AK9*A*1*1*1~\n"
    ++ (strOf "SE*6*" ++ sc ++ strOf "~\n")
    ++ (strOf "GE*1*" ++ gc ++ strOf "~\n")
    ++ (strOf "IEA*1*" ++ ic ++ strOf "~")
    = ackIsaLine sid d t ic ++ '\n' :: (ackGsLine sid gd gt2 gc ++ '\n' ::
        (ackStLine sc ++ '\n' :: (ackAk1Line gc ++ '\n' ::
        (strOf "AK9*A*1*1*1~" ++ '\n' :: (ackSeLine sc ++ '\n' ::
        (ackGeLine gc ++ '\n' :: ackIeaLine ic)))))) := by
  simp only [show strOf "*0*T*>~\n" = strOf "*0*T*>~" ++ ['\n'] from rfl,
    show strOf "*X*004010~\n" = strOf "*X*004010~" ++ ['\n'] from rfl,
    show strOf "~\n" = strOf "~" ++ ['\n'] from rfl,
    show strOf "AK9*A*1*1*1~\n" = strOf "AK9*A*1*1*1~" ++ ['\n'] from rfl,
    ackIsaLine, ackGsLine, ackStLine, ackAk1Line, ackSeLine, ackGeLine,
    ackIeaLine, List.append_assoc, List.cons_append, List.singleton_append,
    List.nil_append]

theorem generate997_splitLines {input sid d t w x y z ic gw gx gd gt2 gc sc : Str}
    (hisa : isaFind input = some (w, x, y, z, ic))
    (hgs : gsFind input = some (gw, gx, gd, gt2, gc))
    (hst : stFind input = some sc)
    (hsid : '\n' ∉ sid) (hd : '\n' ∉ d) (ht : '\n' ∉ t) :
    ((Generate997 input sid d t).1).splitOn '\n' =
      [ackIsaLine sid d t ic, ackGsLine sid gd gt2 gc, ackStLine sc,
       ackAk1Line gc, strOf "AK9*A*1*1*1~", ackSeLine sc, ackGeLine gc,
       ackIeaLine ic] := by
  have hicd := isaFind_digits hisa
  have hgsd := gsFind_digits hgs
  have hscd := stFind_digits hst
  have nic : '\n' ∉ ic := not_mem_of_digits hicd.2 (by decide)
  have ngd : '\n' ∉ gd := not_mem_of_digits hgsd.1.2 (by decide)
  have ngt : '\n' ∉ gt2 := not_mem_of_digits hgsd.2.1.2 (by decide)
  have ngc : '\n' ∉ gc := not_mem_of_digits hgsd.2.2.2 (by decide)
  have nsc : '\n' ∉ sc := not_mem_of_digits hscd.2 (by decide)
  have lIsa : '\n' ∉ ackIsaLine sid d t ic := by
    simp only [ackIsaLine, List.mem_append, not_or]
    exact ⟨⟨⟨⟨⟨⟨⟨⟨by decide, hsid⟩, by decide⟩, hd⟩, by decide⟩, ht⟩,
      by decide⟩, nic⟩, by decide⟩
  have lGs : '\n' ∉ ackGsLine sid gd gt2 gc := by
    simp only [ackGsLine, List.mem_append, not_or]
    exact ⟨⟨⟨⟨⟨⟨⟨⟨by decide, hsid⟩, by decide⟩, ngd⟩, by decide⟩, ngt⟩,
      by decide⟩, ngc⟩, by decide⟩
  have lSt : '\n' ∉ ackStLine sc := by
    simp only [ackStLine, List.mem_append, not_or]
    exact ⟨⟨by decide, nsc⟩, by decide⟩
  have lAk1 : '\n' ∉ ackAk1Line gc := by
    simp only [ackAk1Line, List.mem_append, not_or]
    exact ⟨⟨by decide, ngc⟩, by decide⟩
  have lSe : '\n' ∉ ackSeLine sc := by
    simp only [ackSeLine, List.mem_append, not_or]
    exact ⟨⟨by decide, nsc⟩, by decide⟩
  have lGe : '\n' ∉ ackGeLine gc := by
    simp only [ackGeLine, List.mem_append, not_or]
    exact ⟨⟨by decide, ngc⟩, by decide⟩
  have lIea : '\n' ∉ ackIeaLine ic := by
    simp only [ackIeaLine, List.mem_append, not_or]
    exact ⟨⟨by decide, nic⟩, by decide⟩
  have hg : (Generate997 input sid d t).1 =
      ackIsaLine sid d t ic ++ '\n' :: (ackGsLine sid gd gt2 gc ++ '\n' ::
        (ackStLine sc ++ '\n' :: (ackAk1Line gc ++ '\n' ::
        (strOf "AK9*A*1*1*1~" ++ '\n' :: (ackSeLine sc ++ '\n' ::
        (ackGeLine gc ++ '\n' :: ackIeaLine ic)))))) := by
    rw [show (Generate997 input sid d t).1 =
        strOf "ISA*00*          *00*          *ZZ*AMAZON         *ZZ*"
          ++ sid ++ strOf "*" ++ d ++ strOf "*" ++ t ++ strOf "*U*00400*"
          ++ ic ++ strOf "*0*T*>~\n"
        ++ (strOf "GS*FA*AMAZON*" ++ sid ++ strOf "*" ++ gd ++ strOf "*" ++ gt2
          ++ strOf "*" ++ gc ++ strOf "*X*004010~\n")
        ++ (strOf "ST*997*" ++ sc ++ strOf "~\n")
        ++ (strOf "AK1*PO*" ++ gc ++ strOf "~\n")
        ++ strOf "AK9*A*1*1*1~\n"
        ++ (strOf "SE*6*" ++ sc ++ strOf "~\n")
        ++ (strOf "GE*1*" ++ gc ++ strOf "~\n")
        ++ (strOf "IEA*1*" ++ ic ++ strOf "~") from by
      simp only [Generate997, hisa, hgs, hst]]
    exact ack_concat_lines sid d t ic gd gt2 gc sc
  rw [hg, splitOn_first lIsa, splitOn_first lGs, splitOn_first lSt,
    splitOn_first lAk1, splitOn_first (by decide), splitOn_first lSe,
    splitOn_first lGe, splitOn_single lIea]

theorem fields_ackIsaLine {sid d t ic : Str} (hsid : '*' ∉ sid)
    (hd : '*' ∉ d) (ht : '*' ∉ t) (hic : '*' ∉ ic) :
    (dropTilde (ackIsaLine sid d t ic)).splitOn '*' =
      [strOf "ISA", strOf "00", strOf "          ", strOf "00",
       strOf "          ", strOf "ZZ", strOf "AMAZON         ", strOf "ZZ",
       sid, d, t, strOf "U", strOf "00400", ic, strOf "0", strOf "T",
       strOf ">"] := by
  have e : dropTilde (ackIsaLine sid d t ic) =
      strOf "ISA" ++ '*' :: (strOf "00" ++ '*' :: (strOf "          " ++ '*' ::
        (strOf "00" ++ '*' :: (strOf "          " ++ '*' :: (strOf "ZZ" ++ '*' ::
        (strOf "AMAZON         " ++ '*' :: (strOf "ZZ" ++ '*' :: (sid ++ '*' ::
        (d ++ '*' :: (t ++ '*' :: (strOf "U" ++ '*' :: (strOf "00400" ++ '*' ::
        (ic ++ '*' :: (strOf "0" ++ '*' :: (strOf "T" ++ '*' ::
        strOf ">"))))))))))))))) := by
    unfold ackIsaLine
    rw [show strOf "*0*T*>~" = strOf "*0*T*>" ++ ['~'] from rfl]
    simp only [← List.append_assoc]
    rw [dropTilde_concat]
    simp only [List.append_assoc]
    rfl
  rw [e, splitOn_first (by decide), splitOn_first (by decide),
    splitOn_first (by decide), splitOn_first (by decide),
    splitOn_first (by decide), splitOn_first (by decide),
    splitOn_first (by decide), splitOn_first (by decide),
    splitOn_first hsid, splitOn_first hd, splitOn_first ht,
    splitOn_first (by decide), splitOn_first (by decide),
    splitOn_first hic, splitOn_first (by decide), splitOn_first (by decide),
    splitOn_single (by decide)]

theorem fields_ackGsLine {sid gd gt2 gc : Str} (hsid : '*' ∉ sid)
    (hgd : '*' ∉ gd) (hgt : '*' ∉ gt2) (hgc : '*' ∉ gc) :
    (dropTilde (ackGsLine sid gd gt2 gc)).splitOn '*' =
      [strOf "GS", strOf "FA", strOf "AMAZON", sid, gd, gt2, gc, strOf "X",
       strOf "004010"] := by
  have e : dropTilde (ackGsLine sid gd gt2 gc) =
      strOf "GS" ++ '*' :: (strOf "FA" ++ '*' :: (strOf "AMAZON" ++ '*' ::
        (sid ++ '*' :: (gd ++ '*' :: (gt2 ++ '*' :: (gc ++ '*' ::
        (strOf "X" ++ '*' :: strOf "004010"))))))) := by
    unfold ackGsLine
    rw [show strOf "*X*004010~" = strOf "*X*004010" ++ ['~'] from rfl]
    simp only [← List.append_assoc]
    rw [dropTilde_concat]
    simp only [List.append_assoc]
    rfl
  rw [e, splitOn_first (by decide), splitOn_first (by decide),
    splitOn_first (by decide), splitOn_first hsid, splitOn_first hgd,
    splitOn_first hgt, splitOn_first hgc, splitOn_first (by decide),
    splitOn_single (by decide)]

theorem ackStLine_shape (sc : Str) :
    ackStLine sc = (strOf "ST*997" ++ '*' :: sc) ++ ['~'] := rfl

theorem ackAk1Line_shape (gc : Str) :
    ackAk1Line gc = (strOf "AK1*PO" ++ '*' :: gc) ++ ['~'] := rfl

theorem ackSeLine_shape (sc : Str) :
    ackSeLine sc = (strOf "SE*6" ++ '*' :: sc) ++ ['~'] := rfl

theorem ackGeLine_shape (gc : Str) :
    ackGeLine gc = (strOf "GE*1" ++ '*' :: gc) ++ ['~'] := rfl

theorem ackIeaLine_shape (ic : Str) :
    ackIeaLine ic = (strOf "IEA*1" ++ '*' :: ic) ++ ['~'] := rfl

/-! ### Round trip of the checkpoint JSON encoding -/

theorem unesc_closeQuote (l : Str) : unescapeStr ('"' :: l) = some ([], l) := by
  rw [unescapeStr.eq_def]
  rfl

theorem unesc_bs (l : Str) :
    unescapeStr ('\\' :: '\\' :: l) =
      (unescapeStr l).map fun p => ('\\' :: p.1, p.2) := by
  rw [unescapeStr.eq_def]
  rfl

theorem unesc_q (l : Str) :
    unescapeStr ('\\' :: '"' :: l) =
      (unescapeStr l).map fun p => ('"' :: p.1, p.2) := by
  rw [unescapeStr.eq_def]
  rfl

theorem unesc_n (l : Str) :
    unescapeStr ('\\' :: 'n' :: l) =
      (unescapeStr l).map fun p => ('\n' :: p.1, p.2) := by
  rw [unescapeStr.eq_def]
  rfl

theorem unesc_r (l : Str) :
    unescapeStr ('\\' :: 'r' :: l) =
      (unescapeStr l).map fun p => ('\r' :: p.1, p.2) := by
  rw [unescapeStr.eq_def]
  rfl

theorem unesc_t (l : Str) :
    unescapeStr ('\\' :: 't' :: l) =
      (unescapeStr l).map fun p => ('\t' :: p.1, p.2) := by
  rw [unescapeStr.eq_def]
  rfl

theorem unesc_safe (c : Char) (l : Str) (h1 : c ≠ '"') (h2 : c ≠ '\\')
    (h3 : ¬c.toNat < 32) :
    unescapeStr (c :: l) = (unescapeStr l).map fun p => (c :: p.1, p.2) := by
  rw [unescapeStr.eq_def]
  simp only [if_neg h1, if_neg h2, if_neg h3]

theorem unesc_u (h1 h2 h3 h4 : Char) (a b c3 d : Nat) (l : Str)
    (e1 : hexVal h1 = some a) (e2 : hexVal h2 = some b)
    (e3 : hexVal h3 = some c3) (e4 : hexVal h4 = some d)
    (hval : (((a * 16 + b) * 16 + c3) * 16 + d).isValidChar) :
    unescapeStr ('\\' :: 'u' :: h1 :: h2 :: h3 :: h4 :: l) =
      (unescapeStr l).map fun p =>
        (Char.ofNat (((a * 16 + b) * 16 + c3) * 16 + d) :: p.1, p.2) := by
  rw [unescapeStr.eq_def]
  simp only [e1, e2, e3, e4, reduceIte]
  rw [if_neg (by decide : ¬('\\' : Char) = '"'), if_pos hval]

theorem hexValRound : ∀ n, n < 16 → hexVal (hexDigitChar n) = some n := by decide

theorem unescape_escape (v : Str) :
    ∀ rest : Str, unescapeStr (escapeStr v ++ '"' :: rest) = some (v, rest) := by
  induction v with
  | nil => intro rest; exact unesc_closeQuote rest
  | cons c cs ih =>
    intro rest
    rw [show escapeStr (c :: cs) = escapeChar c ++ escapeStr cs from rfl,
      List.append_assoc]
    unfold escapeChar
    by_cases h1 : c.toNat < 128
    · rw [if_pos h1]
      by_cases h2 : jsonSafeAscii c = true
      · rw [if_pos h2]
        have hq : c ≠ '"' := fun he => by subst he; revert h2; decide
        have hb : c ≠ '\\' := fun he => by subst he; revert h2; decide
        have hc32 : ¬c.toNat < 32 := by
          simp only [jsonSafeAscii, Bool.and_eq_true, decide_eq_true_eq,
            bne_iff_ne] at h2
          omega
        rw [List.singleton_append, unesc_safe c _ hq hb hc32, ih rest]
        rfl
      · rw [if_neg h2]
        by_cases h3 : c = '\\'
        · subst h3
          rw [if_pos rfl, List.cons_append, List.cons_append, List.nil_append,
            unesc_bs, ih rest]
          rfl
        · rw [if_neg h3]
          by_cases h4 : c = '"'
          · subst h4
            rw [if_pos rfl, List.cons_append, List.cons_append, List.nil_append,
              unesc_q, ih rest]
            rfl
          · rw [if_neg h4]
            by_cases h5 : c = '\n'
            · subst h5
              rw [if_pos rfl, List.cons_append, List.cons_append,
                List.nil_append, unesc_n, ih rest]
              rfl
            · rw [if_neg h5]
              by_cases h6 : c = '\r'
              · subst h6
                rw [if_pos rfl, List.cons_append, List.cons_append,
                  List.nil_append, unesc_r, ih rest]
                rfl
              · rw [if_neg h6]
                by_cases h7 : c = '\t'
                · subst h7
                  rw [if_pos rfl, List.cons_append, List.cons_append,
                    List.nil_append, unesc_t, ih rest]
                  rfl
                · rw [if_neg h7]
                  have hdiv : c.toNat / 16 < 16 := by omega
                  have hmod : c.toNat % 16 < 16 := by omega
                  have hval : (((0 * 16 + 0) * 16 + c.toNat / 16) * 16 +
                      c.toNat % 16).isValidChar := by
                    refine Or.inl ?_
                    omega
                  simp only [List.cons_append, List.nil_append]
                  rw [unesc_u '0' '0' (hexDigitChar (c.toNat / 16))
                    (hexDigitChar (c.toNat % 16)) 0 0 (c.toNat / 16)
                    (c.toNat % 16) _ rfl rfl (hexValRound _ hdiv)
                    (hexValRound _ hmod) hval, ih rest]
                  have hcc : Char.ofNat (((0 * 16 + 0) * 16 + c.toNat / 16) * 16 +
                      c.toNat % 16) = c := by
                    rw [show ((0 * 16 + 0) * 16 + c.toNat / 16) * 16 +
                      c.toNat % 16 = c.toNat from by omega]
                    exact Char.ofNat_toNat c
                  rw [hcc]
                  rfl
    · rw [if_neg h1]
      by_cases h8 : c.toNat = 0x2028
      · rw [if_pos h8]
        rw [show strOf "\\u2028" = '\\' :: 'u' :: '2' :: '0' :: '2' :: '8' :: []
          from rfl]
        simp only [List.cons_append, List.nil_append]
        rw [unesc_u '2' '0' '2' '8' 2 0 2 8 _ rfl rfl rfl rfl
          (Or.inl (by omega)), ih rest]
        have hcc : Char.ofNat (((2 * 16 + 0) * 16 + 2) * 16 + 8) = c := by
          rw [show ((2 * 16 + 0) * 16 + 2) * 16 + 8 = c.toNat from by omega]
          exact Char.ofNat_toNat c
        rw [hcc]
        rfl
      · rw [if_neg h8]
        by_cases h9 : c.toNat = 0x2029
        · rw [if_pos h9]
          rw [show strOf "\\u2029" = '\\' :: 'u' :: '2' :: '0' :: '2' :: '9' :: []
            from rfl]
          simp only [List.cons_append, List.nil_append]
          rw [unesc_u '2' '0' '2' '9' 2 0 2 9 _ rfl rfl rfl rfl
            (Or.inl (by omega)), ih rest]
          have hcc : Char.ofNat (((2 * 16 + 0) * 16 + 2) * 16 + 9) = c := by
            rw [show ((2 * 16 + 0) * 16 + 2) * 16 + 9 = c.toNat from by omega]
            exact Char.ofNat_toNat c
          rw [hcc]
          rfl
        · rw [if_neg h9]
          have hq : c ≠ '"' := fun he => by subst he; revert h1; decide
          have hb : c ≠ '\\' := fun he => by subst he; revert h1; decide
          have hc32 : ¬c.toNat < 32 := by omega
          rw [List.singleton_append, unesc_safe c _ hq hb hc32, ih rest]
          rfl

theorem encodeCheckpoint_shape (v : Str) :
    encodeCheckpoint v =
      '\x7b' :: '\n' :: ' ' :: ' ' :: '"' ::
        (escapeStr (strOf "lastControlNumber") ++ '"' :: ':' :: ' ' :: '"' ::
          (escapeStr v ++ '"' :: '\n' :: '\x7d' :: '\n' :: [])) := rfl

theorem decode_encode (v : Str) :
    decodeCheckpoint (encodeCheckpoint v) = some v := by
  rw [encodeCheckpoint_shape]
  simp only [decodeCheckpoint,
    show ∀ l : Str, skipWs ('\x7b' :: l) = '\x7b' :: l from fun l => rfl,
    show ∀ l : Str, expectChar '\x7b' ('\x7b' :: l) = some l from fun l => rfl,
    show ∀ l : Str, skipWs ('\n' :: ' ' :: ' ' :: '"' :: l) = '"' :: l
      from fun l => rfl,
    show ∀ l : Str, expectChar '\x7d' ('"' :: l) = none from fun l => rfl,
    show ∀ l : Str, expectChar '"' ('"' :: l) = some l from fun l => rfl,
    unescape_escape,
    show ∀ l : Str, skipWs (':' :: l) = ':' :: l from fun l => rfl,
    show ∀ l : Str, expectChar ':' (':' :: l) = some l from fun l => rfl,
    show ∀ l : Str, skipWs (' ' :: '"' :: l) = '"' :: l from fun l => rfl,
    show skipWs ('\n' :: '\x7d' :: '\n' :: []) = '\x7d' :: '\n' :: []
      from rfl,
    show expectChar '\x7d' ('\x7d' :: '\n' :: ([] : Str)) = some ('\n' :: [])
      from rfl,
    Option.some_bind, Option.map_some, eq_self_iff_true, if_true]
  rfl

/-! ### Behavior of the order filter loop -/

theorem orderSyncLoop_writes (lastCtrl raw fn : Str) (orders : List Str) :
    ∀ h : Str, (orderSyncLoop lastCtrl raw fn orders h).1 =
      (orders.filter fun po => ltStr lastCtrl po).map
        fun po => (mkOrderFileName fn po, raw) := by
  induction orders with
  | nil => intro h; rfl
  | cons po rest ih =>
    intro h
    rcases hle : leStr po lastCtrl with _ | _
    · have hlt : ltStr lastCtrl po = true := not_leStr_iff.mp hle
      simp [orderSyncLoop, hle, hlt, List.filter_cons, ih]
    · have hlt : ltStr lastCtrl po = false := by
        rcases hlt : ltStr lastCtrl po with _ | _
        · rfl
        · rw [ltStr_iff] at hlt
          rw [leStr_iff] at hle
          exact absurd (cmpStr_swap.mp hlt) hle
      simp [orderSyncLoop, hle, hlt, List.filter_cons, ih]

theorem orderSyncLoop_highest (lastCtrl raw fn : Str) (orders : List Str) :
    ∀ h : Str, leStr lastCtrl h = true →
      (orderSyncLoop lastCtrl raw fn orders h).2 = orders.foldl maxStr h := by
  induction orders with
  | nil => intro h _; rfl
  | cons po rest ih =>
    intro h hinv
    rcases hle : leStr po lastCtrl with _ | _
    · have hinv2 : leStr lastCtrl (maxStr h po) = true :=
        leStr_trans hinv (leStr_maxStr_left h po)
      simp only [orderSyncLoop, hle, Bool.false_eq_true, if_false,
        List.foldl_cons]
      rw [show (if ltStr h po then po else h) = maxStr h po from rfl]
      exact ih (maxStr h po) hinv2
    · have hmax : maxStr h po = h := by
        unfold maxStr
        rcases hlt : ltStr h po with _ | _
        · rfl
        · exfalso
          have hph : leStr po h = true := leStr_trans hle hinv
          have : ltStr h h = true := ltStr_of_ltStr_of_leStr hlt hph
          rw [ltStr_iff, cmpStr_self] at this
          exact absurd this (by simp)
      simp only [orderSyncLoop, hle, if_true, List.foldl_cons, hmax]
      exact ih h hinv

theorem orderSyncLoop_stale (lastCtrl raw fn : Str) (orders : List Str)
    (hst : ∀ po ∈ orders, leStr po lastCtrl = true) :
    (orderSyncLoop lastCtrl raw fn orders lastCtrl).2 = lastCtrl := by
  induction orders with
  | nil => rfl
  | cons po rest ih =>
    have hpo := hst po (List.mem_cons_self _ _)
    simp only [orderSyncLoop, hpo, if_true]
    exact ih fun q hq => hst q (List.mem_cons_of_mem _ hq)

theorem leStr_foldl_maxStr (wm : Str) (orders : List Str) :
    ∀ h : Str, leStr wm h = true →
      leStr wm (orders.foldl maxStr h) = true := by
  induction orders with
  | nil => exact fun h hh => hh
  | cons po rest ih =>
    intro h hh
    exact ih (maxStr h po) (leStr_trans hh (leStr_maxStr_left h po))

theorem ediField_of_lines {a : Str} {lines : List Str}
    (hl : a.splitOn '\n' = lines) (i j : Nat) :
    ediField a i j = ((dropTilde (lines.getD i [])).splitOn '*').getD j [] := by
  unfold ediField ediLine
  rw [hl]

theorem fields_ackStLine {sc : Str} (hsc : '*' ∉ sc) :
    (dropTilde (ackStLine sc)).splitOn '*' = [strOf "ST", strOf "997", sc] := by
  rw [ackStLine_shape, dropTilde_concat,
    show strOf "ST*997" ++ '*' :: sc =
      strOf "ST" ++ '*' :: (strOf "997" ++ '*' :: sc) from rfl,
    splitOn_first (by decide), splitOn_first (by decide), splitOn_single hsc]

theorem fields_ackAk1Line {gc : Str} (hgc : '*' ∉ gc) :
    (dropTilde (ackAk1Line gc)).splitOn '*' = [strOf "AK1", strOf "PO", gc] := by
  rw [ackAk1Line_shape, dropTilde_concat,
    show strOf "AK1*PO" ++ '*' :: gc =
      strOf "AK1" ++ '*' :: (strOf "PO" ++ '*' :: gc) from rfl,
    splitOn_first (by decide), splitOn_first (by decide), splitOn_single hgc]

theorem fields_ackSeLine {sc : Str} (hsc : '*' ∉ sc) :
    (dropTilde (ackSeLine sc)).splitOn '*' = [strOf "SE", strOf "6", sc] := by
  rw [ackSeLine_shape, dropTilde_concat,
    show strOf "SE*6" ++ '*' :: sc =
      strOf "SE" ++ '*' :: (strOf "6" ++ '*' :: sc) from rfl,
    splitOn_first (by decide), splitOn_first (by decide), splitOn_single hsc]

theorem fields_ackGeLine {gc : Str} (hgc : '*' ∉ gc) :
    (dropTilde (ackGeLine gc)).splitOn '*' = [strOf "GE", strOf "1", gc] := by
  rw [ackGeLine_shape, dropTilde_concat,
    show strOf "GE*1" ++ '*' :: gc =
      strOf "GE" ++ '*' :: (strOf "1" ++ '*' :: gc) from rfl,
    splitOn_first (by decide), splitOn_first (by decide), splitOn_single hgc]

theorem fields_ackIeaLine {ic : Str} (hic : '*' ∉ ic) :
    (dropTilde (ackIeaLine ic)).splitOn '*' = [strOf "IEA", strOf "1", ic] := by
  rw [ackIeaLine_shape, dropTilde_concat,
    show strOf "IEA*1" ++ '*' :: ic =
      strOf "IEA" ++ '*' :: (strOf "1" ++ '*' :: ic) from rfl,
    splitOn_first (by decide), splitOn_first (by decide), splitOn_single hic]

/-! ### Concrete documents used by witnesses and counterexamples -/

/-- Well-formed inbound document whose ISA, GS and ST control numbers are
900000014, 900000014 and 0001, as in the spec scenario. -/
def wfDoc900 : Str := strOf
  "ISA*00*x*00*x*ZZ*SND*ZZ*RCV*250508*1540*U*00400*900000014*0*T*>~\nGS*PO*SND*RCV*20250508*1540*900000014*X*004010~\nST*850*0001~\n"

/-- Well-formed inbound document whose ISA interchange control number
(111111111) differs from its GS group control number (222222222). -/
def wfDocSplit : Str := strOf
  "ISA*00*x*00*x*ZZ*SND*ZZ*RCV*250508*1540*U*00400*111111111*0*T*>~\nGS*PO*SND*RCV*20250508*1540*222222222*X*004010~\nST*850*0001~\n"

/-- Document with no ISA interchange header. -/
def docNoIsa : Str := strOf
  "GS*PO*SND*RCV*20250508*1540*900000014*X*004010~ST*850*0001~"

/-- Document with an ISA header but no GS purchase-order group header. -/
def docNoGs : Str := strOf
  "ISA*00*x*00*x*ZZ*SND*ZZ*RCV*250508*1540*U*00400*900000014*0*T*>~ST*850*0001~"

/-- Document with ISA and GS headers but no ST transaction-set header. -/
def docNoSt : Str := strOf
  "ISA*00*x*00*x*ZZ*SND*ZZ*RCV*250508*1540*U*00400*900000014*0*T*>~GS*PO*SND*RCV*20250508*1540*900000014*X*004010~"

/-! ### Claim C1 -/

/-- C1 (amended): for every inbound document from which the three headers
extract successfully, the acknowledgment built by Generate997 echoes the
inbound ISA interchange control number in its ISA control-number field and
its IEA trailer, the inbound GS group control number in its GS, AK1 and GE
fields, and the inbound ST control number in its ST and SE fields.  (The
claim as frozen said the GE trailer echoes the ISA interchange control
number; the code echoes the GS group control number there.) -/
theorem c1_extract_build_echoes {input sid d t w x y z ic gw gx gd gt2 gc sc : Str}
    (hisa : isaFind input = some (w, x, y, z, ic))
    (hgs : gsFind input = some (gw, gx, gd, gt2, gc))
    (hst : stFind input = some sc)
    (hsidn : '\n' ∉ sid) (hdn : '\n' ∉ d) (htn : '\n' ∉ t)
    (hsids : '*' ∉ sid) (hds : '*' ∉ d) (hts : '*' ∉ t) :
    ediField (Generate997 input sid d t).1 0 13 = ic ∧
    ediField (Generate997 input sid d t).1 7 2 = ic ∧
    ediField (Generate997 input sid d t).1 1 6 = gc ∧
    ediField (Generate997 input sid d t).1 3 2 = gc ∧
    ediField (Generate997 input sid d t).1 6 2 = gc ∧
    ediField (Generate997 input sid d t).1 2 2 = sc ∧
    ediField (Generate997 input sid d t).1 5 2 = sc := by
  have hlines := generate997_splitLines hisa hgs hst hsidn hdn htn
  have hicd := isaFind_digits hisa
  have hgsd := gsFind_digits hgs
  have hscd := stFind_digits hst
  have sic : '*' ∉ ic := not_mem_of_digits hicd.2 (by decide)
  have sgd : '*' ∉ gd := not_mem_of_digits hgsd.1.2 (by decide)
  have sgt : '*' ∉ gt2 := not_mem_of_digits hgsd.2.1.2 (by decide)
  have sgc : '*' ∉ gc := not_mem_of_digits hgsd.2.2.2 (by decide)
  have ssc : '*' ∉ sc := not_mem_of_digits hscd.2 (by decide)
  refine ⟨?_, ?_, ?_, ?_, ?_, ?_, ?_⟩
  · rw [ediField_of_lines hlines]
    show ((dropTilde (ackIsaLine sid d t ic)).splitOn '*').getD 13 [] = ic
    rw [fields_ackIsaLine hsids hds hts sic]
    rfl
  · rw [ediField_of_lines hlines]
    show ((dropTilde (ackIeaLine ic)).splitOn '*').getD 2 [] = ic
    rw [fields_ackIeaLine sic]
    rfl
  · rw [ediField_of_lines hlines]
    show ((dropTilde (ackGsLine sid gd gt2 gc)).splitOn '*').getD 6 [] = gc
    rw [fields_ackGsLine hsids sgd sgt sgc]
    rfl
  · rw [ediField_of_lines hlines]
    show ((dropTilde (ackAk1Line gc)).splitOn '*').getD 2 [] = gc
    rw [fields_ackAk1Line sgc]
    rfl
  · rw [ediField_of_lines hlines]
    show ((dropTilde (ackGeLine gc)).splitOn '*').getD 2 [] = gc
    rw [fields_ackGeLine sgc]
    rfl
  · rw [ediField_of_lines hlines]
    show ((dropTilde (ackStLine sc)).splitOn '*').getD 2 [] = sc
    rw [fields_ackStLine ssc]
    rfl
  · rw [ediField_of_lines hlines]
    show ((dropTilde (ackSeLine sc)).splitOn '*').getD 2 [] = sc
    rw [fields_ackSeLine ssc]
    rfl

/-- C1 (counterexample to the claim as frozen): on a well-formed document
whose ISA control number is 111111111 and whose GS control number is
222222222, the GE trailer of the generated acknowledgment carries
222222222, not the inbound ISA interchange control number. -/
theorem c1_counterexample :
    isaFind wfDocSplit = some (strOf "SND", strOf "RCV", strOf "250508",
      strOf "1540", strOf "111111111") ∧
    gsFind wfDocSplit = some (strOf "SND", strOf "RCV", strOf "20250508",
      strOf "1540", strOf "222222222") ∧
    ediField (Generate997 wfDocSplit (strOf "SND") (strOf "250509")
      (strOf "0905")).1 6 2 = strOf "222222222" ∧
    strOf "222222222" ≠ strOf "111111111" := by
  refine ⟨by decide, by decide, by decide, by decide⟩

/-- C1 (witness): the amended theorem applied to the spec scenario document
with ISA control 900000014, GS control 900000014 and ST control 0001. -/
theorem c1_witness :
    ediField (Generate997 wfDoc900 (strOf "SND") (strOf "250509")
      (strOf "0905")).1 0 13 = strOf "900000014" ∧
    ediField (Generate997 wfDoc900 (strOf "SND") (strOf "250509")
      (strOf "0905")).1 7 2 = strOf "900000014" ∧
    ediField (Generate997 wfDoc900 (strOf "SND") (strOf "250509")
      (strOf "0905")).1 1 6 = strOf "900000014" ∧
    ediField (Generate997 wfDoc900 (strOf "SND") (strOf "250509")
      (strOf "0905")).1 3 2 = strOf "900000014" ∧
    ediField (Generate997 wfDoc900 (strOf "SND") (strOf "250509")
      (strOf "0905")).1 6 2 = strOf "900000014" ∧
    ediField (Generate997 wfDoc900 (strOf "SND") (strOf "250509")
      (strOf "0905")).1 2 2 = strOf "0001" ∧
    ediField (Generate997 wfDoc900 (strOf "SND") (strOf "250509")
      (strOf "0905")).1 5 2 = strOf "0001" :=
  @c1_extract_build_echoes wfDoc900 (strOf "SND") (strOf "250509")
    (strOf "0905") (strOf "SND") (strOf "RCV") (strOf "250508")
    (strOf "1540") (strOf "900000014") (strOf "SND") (strOf "RCV")
    (strOf "20250508") (strOf "1540") (strOf "900000014") (strOf "0001")
    (by decide) (by decide) (by decide) (by decide) (by decide) (by decide)
    (by decide) (by decide) (by decide)

/-! ### Claim C5 -/

/-- C5 (amended): for every successfully extracted document, the built
acknowledgment's ISA segment carries AMAZON (padded to fifteen characters)
in the ISA sender field and the configured sender ID in the ISA receiver
field — the same orientation as the inbound interchange, not the reversal
the claim as frozen states — with the original interchange control number
echoed in the control-number position.  -/
theorem c5_isa_roles {input sid d t w x y z ic gw gx gd gt2 gc sc : Str}
    (hisa : isaFind input = some (w, x, y, z, ic))
    (hgs : gsFind input = some (gw, gx, gd, gt2, gc))
    (hst : stFind input = some sc)
    (hsidn : '\n' ∉ sid) (hdn : '\n' ∉ d) (htn : '\n' ∉ t)
    (hsids : '*' ∉ sid) (hds : '*' ∉ d) (hts : '*' ∉ t) :
    ediField (Generate997 input sid d t).1 0 6 = strOf "AMAZON         " ∧
    ediField (Generate997 input sid d t).1 0 8 = sid ∧
    ediField (Generate997 input sid d t).1 0 13 = ic := by
  have hlines := generate997_splitLines hisa hgs hst hsidn hdn htn
  have hicd := isaFind_digits hisa
  have sic : '*' ∉ ic := not_mem_of_digits hicd.2 (by decide)
  refine ⟨?_, ?_, ?_⟩
  · rw [ediField_of_lines hlines]
    show ((dropTilde (ackIsaLine sid d t ic)).splitOn '*').getD 6 [] =
      strOf "AMAZON         "
    rw [fields_ackIsaLine hsids hds hts sic]
    rfl
  · rw [ediField_of_lines hlines]
    show ((dropTilde (ackIsaLine sid d t ic)).splitOn '*').getD 8 [] = sid
    rw [fields_ackIsaLine hsids hds hts sic]
    rfl
  · rw [ediField_of_lines hlines]
    show ((dropTilde (ackIsaLine sid d t ic)).splitOn '*').getD 13 [] = ic
    rw [fields_ackIsaLine hsids hds hts sic]
    rfl

/-- C5 (counterexample to the claim as frozen): with configured sender ID
MYID, the ISA sender field of the acknowledgment is the fixed padded
AMAZON, not MYID, and MYID sits in the receiver field. -/
theorem c5_counterexample :
    ediField (Generate997 wfDoc900 (strOf "MYID") (strOf "250509")
      (strOf "0905")).1 0 6 = strOf "AMAZON         " ∧
    ediField (Generate997 wfDoc900 (strOf "MYID") (strOf "250509")
      (strOf "0905")).1 0 8 = strOf "MYID" ∧
    strOf "AMAZON         " ≠ strOf "MYID" := by
  refine ⟨by decide, by decide, by decide⟩

/-- C5 (witness): the amended theorem applied at the scenario document. -/
theorem c5_witness :
    ediField (Generate997 wfDoc900 (strOf "MYID") (strOf "250509")
      (strOf "0905")).1 0 6 = strOf "AMAZON         " ∧
    ediField (Generate997 wfDoc900 (strOf "MYID") (strOf "250509")
      (strOf "0905")).1 0 8 = strOf "MYID" ∧
    ediField (Generate997 wfDoc900 (strOf "MYID") (strOf "250509")
      (strOf "0905")).1 0 13 = strOf "900000014" :=
  @c5_isa_roles wfDoc900 (strOf "MYID") (strOf "250509") (strOf "0905")
    (strOf "SND") (strOf "RCV") (strOf "250508") (strOf "1540")
    (strOf "900000014") (strOf "SND") (strOf "RCV") (strOf "20250508")
    (strOf "1540") (strOf "900000014") (strOf "0001")
    (by decide) (by decide) (by decide) (by decide) (by decide) (by decide)
    (by decide) (by decide) (by decide)

/-! ### Claim C6 -/

/-- C6: a document missing any of the three required headers makes
Generate997 fail with the error of the first missing header, checked in
the order ISA, GS, ST; no acknowledgment bytes are produced (the string
component is empty and the error component is non-nil), so the builder is
never reached. -/
theorem c6_missing_header_fails (input sid d t : Str) :
    (isaFind input = none → Generate997 input sid d t = ([], some errIsa)) ∧
    (isaFind input ≠ none → gsFind input = none →
      Generate997 input sid d t = ([], some errGs)) ∧
    (isaFind input ≠ none → gsFind input ≠ none → stFind input = none →
      Generate997 input sid d t = ([], some errSt)) ∧
    ((isaFind input = none ∨ gsFind input = none ∨ stFind input = none) →
      (Generate997 input sid d t).1 = [] ∧
      (Generate997 input sid d t).2 ≠ none) := by
  refine ⟨fun h => ?_, fun h1 h2 => ?_, fun h1 h2 h3 => ?_, fun h => ?_⟩
  · simp [Generate997, h]
  · rcases hi : isaFind input with _ | m
    · exact absurd hi h1
    · simp [Generate997, hi, h2]
  · rcases hi : isaFind input with _ | m
    · exact absurd hi h1
    · rcases hg : gsFind input with _ | m2
      · exact absurd hg h2
      · simp [Generate997, hi, hg, h3]
  · rcases hi : isaFind input with _ | m
    · simp [Generate997, hi]
    · rcases hg : gsFind input with _ | m2
      · simp [Generate997, hi, hg]
      · rcases hs : stFind input with _ | m3
        · simp [Generate997, hi, hg, hs]
        · rcases h with h | h | h
          · exact absurd hi (h ▸ fun he => Option.noConfusion he)
          · rw [h] at hg
            exact Option.noConfusion hg
          · rw [h] at hs
            exact Option.noConfusion hs

/-- C6 (witness): the theorem applied to three concrete malformed
documents, one per missing header. -/
theorem c6_witness :
    Generate997 docNoIsa (strOf "SND") (strOf "250509") (strOf "0905") =
      ([], some errIsa) ∧
    Generate997 docNoGs (strOf "SND") (strOf "250509") (strOf "0905") =
      ([], some errGs) ∧
    Generate997 docNoSt (strOf "SND") (strOf "250509") (strOf "0905") =
      ([], some errSt) :=
  ⟨(c6_missing_header_fails docNoIsa (strOf "SND") (strOf "250509")
      (strOf "0905")).1 (by decide),
   (c6_missing_header_fails docNoGs (strOf "SND") (strOf "250509")
      (strOf "0905")).2.1 (by decide) (by decide),
   (c6_missing_header_fails docNoSt (strOf "SND") (strOf "250509")
      (strOf "0905")).2.2.1 (by decide) (by decide) (by decide)⟩

/-! ### Claim C2 -/

/-- C2 (amended): the EDI phase of a cycle downloads every file of the
remote inbound directory to local storage (deleting the remote copies only
when configured to) and uploads exactly one file, the fixed hard-coded
ConnectivityTest document, to the remote outbound directory; its uploads do
not depend on the inbound documents, so no per-document 997 is pushed and
the envelope extractor and acknowledgment builder are never invoked. -/
theorem c2_edi_phase_behavior (inbound : List (Str × Str))
    (deleteAfterDownload : Bool) :
    (ediPhase inbound deleteAfterDownload).uploads =
      [(strOf "ConnectivityTest", connectivityTestPayload)] ∧
    (ediPhase inbound deleteAfterDownload).localFiles = inbound ∧
    (ediPhase inbound deleteAfterDownload).remoteInboundAfter =
      (if deleteAfterDownload then [] else inbound) :=
  ⟨rfl, rfl, rfl⟩

/-- C2 (counterexample to the claim as frozen): a cycle whose remote
inbound directory holds one well-formed purchase-order document pushes
only the fixed ConnectivityTest payload, which is not the 997 that
Generate997 would produce for that document, even though extraction
succeeds on it. -/
theorem c2_counterexample :
    (ediPhase [(strOf "po1.edi", wfDoc900)] false).uploads =
      [(strOf "ConnectivityTest", connectivityTestPayload)] ∧
    (Generate997 wfDoc900 (strOf "SND") (strOf "250509") (strOf "0905")).2 =
      none ∧
    ∀ u ∈ (ediPhase [(strOf "po1.edi", wfDoc900)] false).uploads,
      u.2 ≠ (Generate997 wfDoc900 (strOf "SND") (strOf "250509")
        (strOf "0905")).1 := by
  refine ⟨rfl, by decide, by decide⟩

/-! ### Claim C3 -/

/-- C3: the order filter persists exactly the records whose identifier is
strictly greater than the loaded watermark under the Go string ordering,
in input order (the writes are the filtered batch mapped to per-order
files); on the spec scenario — watermark 0000100 and batch 0000099,
0000150, 0000120 — the new records are exactly 0000150 then 0000120 and
the final highest is 0000150. -/
theorem c3_new_records_filter :
    (∀ wm raw fn : Str, ∀ orders : List Str,
      (orderSyncLoop wm raw fn orders wm).1 =
        (orders.filter fun po => ltStr wm po).map
          fun po => (mkOrderFileName fn po, raw)) ∧
    orderSyncLoop (strOf "0000100") (strOf "RAWBODY") (strOf "data_dump")
        [strOf "0000099", strOf "0000150", strOf "0000120"]
        (strOf "0000100") =
      ([(strOf "data_dump_0000150.json", strOf "RAWBODY"),
        (strOf "data_dump_0000120.json", strOf "RAWBODY")],
       strOf "0000150") :=
  ⟨fun wm raw fn orders => orderSyncLoop_writes wm raw fn orders wm,
   by decide⟩

/-! ### Claim C4 -/

/-- C4: the highest value tracked by the order filter pass equals the fold
of the binary maximum (under the Go string ordering) over the batch
starting from the loaded watermark, and is therefore never less than that
watermark, also for an empty or entirely-stale batch. -/
theorem c4_watermark_monotone (wm raw fn : Str) (orders : List Str) :
    (orderSyncLoop wm raw fn orders wm).2 = orders.foldl maxStr wm ∧
    leStr wm (orderSyncLoop wm raw fn orders wm).2 = true := by
  have h1 := orderSyncLoop_highest wm raw fn orders wm (leStr_refl wm)
  exact ⟨h1, h1 ▸ leStr_foldl_maxStr wm orders wm (leStr_refl wm)⟩

/-! ### Claim C7 -/

/-- C7: saving any control-number string and loading it back returns
exactly that string, and the file written is the single-field JSON object
whose lastControlNumber field holds the (escaped) string. -/
theorem c7_checkpoint_round_trip (v : Str) (prev : Option Str) :
    SaveCheckpoint prev v = some (encodeCheckpoint v) ∧
    encodeCheckpoint v = strOf "\x7b\n  \"lastControlNumber\": \""
      ++ escapeStr v ++ strOf "\"\n\x7d\n" ∧
    LoadCheckpoint (SaveCheckpoint prev v) =
      ⟨some (encodeCheckpoint v), false, v, none⟩ := by
  refine ⟨rfl, rfl, ?_⟩
  show LoadCheckpoint (some (encodeCheckpoint v)) = _
  simp [LoadCheckpoint, decode_encode]

/-! ### Claim C8 -/

/-- C8: loading with no checkpoint file creates one holding the empty
watermark and returns empty, and a second load on the created file returns
empty again without writing (no further creation side effects). -/
theorem c8_checkpoint_bootstrap :
    LoadCheckpoint none = ⟨some (encodeCheckpoint []), true, [], none⟩ ∧
    LoadCheckpoint (some (encodeCheckpoint [])) =
      ⟨some (encodeCheckpoint []), false, [], none⟩ := by
  refine ⟨rfl, ?_⟩
  simp [LoadCheckpoint, decode_encode []]

/-! ### Claim C9 -/

/-- C9: when no purchase-order number in the batch is strictly greater
than the loaded watermark, the SP-API phase performs no checkpoint save:
the phase reports checkpointSaved false and leaves the checkpoint file at
its after-load state, which equals the prior content whenever the file
existed. -/
theorem c9_save_only_if_advanced (file : Option Str) (orders : List Str)
    (raw fn : Str)
    (herr : (LoadCheckpoint file).err = none)
    (hst : ∀ po ∈ orders, ltStr (LoadCheckpoint file).value po = false) :
    apiPhase file orders raw fn =
      some ⟨(orderSyncLoop (LoadCheckpoint file).value raw fn orders
          (LoadCheckpoint file).value).1,
        (LoadCheckpoint file).fileAfter, false⟩ ∧
    ∀ c : Str, file = some c → (LoadCheckpoint file).fileAfter = some c := by
  constructor
  · have hle : ∀ po ∈ orders, leStr po (LoadCheckpoint file).value = true := by
      intro po hm
      rcases hq : leStr po (LoadCheckpoint file).value with _ | _
      · exact absurd (not_leStr_iff.mp hq) (by simp [hst po hm])
      · rfl
    have hstale := orderSyncLoop_stale (LoadCheckpoint file).value raw fn
      orders hle
    simp [apiPhase, herr, hstale]
  · intro c hc
    subst hc
    rcases hdec : decodeCheckpoint c with _ | wv <;>
      simp [LoadCheckpoint, hdec]

/-- C9 (witness): a checkpoint file holding watermark 0000100 and a batch
whose only order number 0000050 is stale: the phase output keeps the file
content and reports no save. -/
theorem c9_witness :
    apiPhase (some (encodeCheckpoint (strOf "0000100"))) [strOf "0000050"]
      (strOf "RAWBODY") (strOf "data_dump") =
    some ⟨[], some (encodeCheckpoint (strOf "0000100")), false⟩ :=
  ((c9_save_only_if_advanced (some (encodeCheckpoint (strOf "0000100")))
    [strOf "0000050"] (strOf "RAWBODY") (strOf "data_dump")
    (by decide) (by decide)).1).trans (by decide)

/-! ### Claim C10 -/

theorem map_snd_orderWrites (fn raw : Str) (l : List Str) :
    ((l.map fun po => (mkOrderFileName fn po, raw)).map Prod.snd) =
      List.replicate l.length raw := by
  induction l with
  | nil => rfl
  | cons po rest ih => simp [ih, List.replicate_succ]

theorem map_fst_orderWrites (fn raw : Str) (l : List Str) :
    ((l.map fun po => (mkOrderFileName fn po, raw)).map Prod.fst) =
      l.map (mkOrderFileName fn) := by
  induction l with
  | nil => rfl
  | cons po rest ih => simp [ih]

/-- C10: every per-order file written by the filter loop carries the
entire raw response body as its content — the write contents are the raw
body replicated once per new record, so any two files written in one cycle
are byte-identical — while the file names are the configured base name
with the purchase-order number embedded. -/
theorem c10_order_files_hold_raw_body (wm raw fn : Str) (orders : List Str)
    (h0 : Str) :
    ((orderSyncLoop wm raw fn orders h0).1).map Prod.snd =
      List.replicate ((orderSyncLoop wm raw fn orders h0).1).length raw ∧
    ((orderSyncLoop wm raw fn orders h0).1).map Prod.fst =
      ((orders.filter fun po => ltStr wm po)).map (mkOrderFileName fn) := by
  rw [orderSyncLoop_writes]
  refine ⟨?_, map_fst_orderWrites fn raw _⟩
  rw [map_snd_orderWrites, List.length_map]

end AvcImporter
